import Mathlib

/-!
Shallow embedding of the core of `krfl/sidequest` (`src/main.rs`): a journaling
CLI with a JSON entry store, date-range filtering and a daily-summary
aggregator.

Modelling conventions:
* `DateTime<Utc>` timestamps are modelled as `Int` seconds since the Unix
  epoch (the store serializes with `ts_seconds`, second precision).
* The process-local timezone (`Local::now().timezone()` together with
  `NaiveDateTime::and_local_timezone`) is modelled as a parameter `Tz`
  mapping a naive local date-time (as naive seconds since epoch) to the
  `chrono::LocalResult` of the lookup: no instant, a single UTC instant, or
  two candidate UTC instants (repeated local-time window).
* `chrono`'s `NaiveDateTime::parse_from_str` with the fixed format string
  `"%Y-%m-%d %H:%M"` is embedded concretely below (`parseNaive`): numeric
  fields skip leading whitespace and read 1 to `width` greedy digits
  (`width` = 4 for the year, 2 for month/day/hour/minute; a year with an
  explicit `+`/`-` sign reads unboundedly many digits), literal `-`/`:`
  match exactly, the format's space matches any run of whitespace including
  none, the whole input must be consumed, and the parsed fields must form a
  valid proleptic-Gregorian date and a valid time of day.
* A Rust panic (`expect`, `todo!`) is modelled as `Option.none`; fallible
  store parsing (`serde_json::from_reader`) is abstracted as an
  `Except`-valued parameter.
-/

/-- One journal entry: `struct Entry { timestamp: DateTime<Utc>, message: String }`,
with the timestamp as seconds since the Unix epoch. -/
structure Entry where
  timestamp : Int
  message : String
  deriving DecidableEq, Repr

/-- Models Rust `char::to_uppercase` as used on the first character of a
message. The full Unicode mapping is the identity outside the ASCII
lowercase range for every character appearing in this development; the
multi-character special casings are not exercised and are elided. -/
def charToUppercase (c : Char) : List Char :=
  if 'a' ≤ c ∧ c ≤ 'z' then [Char.ofNat (c.toNat - 32)] else [c]

/-- `fn capitalize(s: &str) -> String`: uppercase the first character (via
`to_uppercase().collect::<String>()`) and append the rest of the character
iterator unchanged; the empty string maps to the empty string. -/
def capitalize (s : String) : String :=
  match s.data with
  | [] => ""
  | f :: rest => String.mk (charToUppercase f) ++ String.mk rest

/-- `Entry::to_daily`: truncate the timestamp with
`duration_trunc(TimeDelta::try_days(1))`, which floors the UTC timestamp to
the previous multiple of 86400 seconds (toward negative infinity), and keep
the message. `%` is `Int.emod`, whose result is non-negative here, matching
chrono's adjustment of a negative remainder by the span. -/
def Entry.to_daily (val : Entry) : Entry :=
  { timestamp := val.timestamp - val.timestamp % 86400
    message := val.message }

/-- `Entry::merge`: replace the running summary's message by
`capitalize(summary) ++ ". " ++ capitalize(incoming)` (the Rust code mutates
`self` in place; the model returns the updated entry). -/
def Entry.merge (self entry : Entry) : Entry :=
  { self with message := capitalize self.message ++ ". " ++ capitalize entry.message }

/-! ### chrono date parsing (`parse_date`, lines 94-116) -/

/-- Greedily consume up to `fuel` ASCII digits, returning the accumulated
value, the number of digits consumed, and the rest (chrono `scan::number`). -/
def takeDigits : Nat → List Char → Nat → Nat → Nat × Nat × List Char
  | _, [], acc, cnt => (acc, cnt, [])
  | 0, cs, acc, cnt => (acc, cnt, cs)
  | Nat.succ fuel, c :: cs, acc, cnt =>
    if c.isDigit then takeDigits fuel cs (acc * 10 + (c.toNat - 48)) (cnt + 1)
    else (acc, cnt, c :: cs)

/-- chrono `scan::number(s, 1, maxWidth)`: at least one digit, at most
`maxWidth`. -/
def scanNumber (maxWidth : Nat) (cs : List Char) : Option (Nat × List Char) :=
  let r := takeDigits maxWidth cs 0 0
  if r.2.1 = 0 then none else some (r.1, r.2.2)

/-- Drop leading whitespace (chrono trims whitespace before every numeric
field and at each `Space` format item). -/
def trimWs : List Char → List Char
  | [] => []
  | c :: cs => if c.isWhitespace then trimWs cs else c :: cs

/-- The `%Y` item: leading whitespace skipped, then either a sign followed by
unboundedly many digits, or 1 to 4 digits. -/
def parseYear (cs : List Char) : Option (Int × List Char) :=
  match trimWs cs with
  | '-' :: rest => (scanNumber rest.length rest).map (fun p => (-(p.1 : Int), p.2))
  | '+' :: rest => (scanNumber rest.length rest).map (fun p => ((p.1 : Int), p.2))
  | rest => (scanNumber 4 rest).map (fun p => ((p.1 : Int), p.2))

/-- A two-digit-wide numeric item (`%m`, `%d`, `%H`, `%M`): leading
whitespace skipped, then 1 or 2 digits. -/
def parseNum2 (cs : List Char) : Option (Nat × List Char) :=
  scanNumber 2 (trimWs cs)

/-- A literal format character: must match exactly, no whitespace skipping. -/
def expectChar (c : Char) : List Char → Option (List Char)
  | [] => none
  | x :: xs => if x = c then some xs else none

/-- Syntactic pass of parsing against `"%Y-%m-%d %H:%M"`; the whole input
must be consumed (chrono's `TOO_LONG` check). -/
def parseFormatParts (cs : List Char) : Option (Int × Nat × Nat × Nat × Nat) :=
  (parseYear cs).bind (fun py =>
  (expectChar '-' py.2).bind (fun r2 =>
  (parseNum2 r2).bind (fun pm =>
  (expectChar '-' pm.2).bind (fun r4 =>
  (parseNum2 r4).bind (fun pd =>
  (parseNum2 (trimWs pd.2)).bind (fun ph =>
  (expectChar ':' ph.2).bind (fun r8 =>
  (parseNum2 r8).bind (fun pmi =>
  if pmi.2 = [] then some (py.1, pm.1, pd.1, ph.1, pmi.1) else none))))))))

/-- Proleptic-Gregorian leap year. -/
def isLeapYear (y : Int) : Bool :=
  y % 4 = 0 ∧ (y % 100 ≠ 0 ∨ y % 400 = 0)

/-- Days in a month of the proleptic-Gregorian calendar. -/
def daysInMonth (y : Int) (m : Nat) : Nat :=
  if m = 2 then (if isLeapYear y then 29 else 28)
  else if m = 4 ∨ m = 6 ∨ m = 9 ∨ m = 11 then 30
  else 31

/-- Validity of a parsed civil date (chrono `NaiveDate::from_ymd_opt`); the
year range is chrono's supported range, far from anything exercised here. -/
def dateValid (y : Int) (m d : Nat) : Bool :=
  1 ≤ m ∧ m ≤ 12 ∧ 1 ≤ d ∧ d ≤ daysInMonth y m ∧ -262144 ≤ y ∧ y ≤ 262142

/-- Validity of a parsed time of day (chrono `NaiveTime`). -/
def timeValid (h mi : Nat) : Bool :=
  h ≤ 23 ∧ mi ≤ 59

/-- Days since 1970-01-01 of a proleptic-Gregorian civil date
(the standard days-from-civil computation; agrees with chrono's internal
date representation on the supported range). -/
def daysFromCivil (y : Int) (m d : Nat) : Int :=
  let yAdj : Int := if m ≤ 2 then y - 1 else y
  let era : Int := yAdj.fdiv 400
  let yoe : Int := yAdj - era * 400
  let mp : Int := ((m : Int) + 9) % 12
  let doy : Int := (153 * mp + 2) / 5 + (d : Int) - 1
  let doe : Int := yoe * 365 + yoe / 4 - yoe / 100 + doy
  era * 146097 + doe - 719468

/-- Naive seconds since epoch of a civil date-time (no timezone applied). -/
def civilToNaive (y : Int) (m d h mi : Nat) : Int :=
  daysFromCivil y m d * 86400 + (h : Int) * 3600 + (mi : Int) * 60

/-- One `NaiveDateTime::parse_from_str(_, "%Y-%m-%d %H:%M")` attempt:
syntactic parse, then field validation, then conversion to naive seconds. -/
def parseAttempt (cs : List Char) : Option Int :=
  (parseFormatParts cs).bind (fun p =>
    match p with
    | (y, mo, d, h, mi) =>
      if dateValid y mo d ∧ timeValid h mi then some (civilToNaive y mo d h mi)
      else none)

/-- Lines 97-102: parse the raw input, or fall back to the input with
`" 0:0"` appended (`naive_date_time.or(naive_date)`). -/
def parseNaive (s : String) : Option Int :=
  (parseAttempt s.data).orElse (fun _ => parseAttempt (s.data ++ (" 0:0").data))

/-- `chrono::LocalResult` of a local-timezone lookup, with instants already
as UTC seconds. -/
inductive LocalRes where
  | noneRes : LocalRes
  | single (u : Int) : LocalRes
  | ambiguous (u1 u2 : Int) : LocalRes
  deriving DecidableEq, Repr

/-- The process-local timezone, abstracted as the result of
`NaiveDateTime::and_local_timezone` on each naive local date-time. -/
structure Tz where
  resolve : Int → LocalRes

/-- A UTC-like local timezone (offset zero, never ambiguous), used for
concrete evaluations. -/
def utcTz : Tz :=
  { resolve := fun n => LocalRes.single n }

/-- Diagnostics emitted on stderr by `parse_date`. -/
inductive Diag where
  | ambiguousDate (date : String) (dt dt2 : Int) : Diag
  deriving DecidableEq, Repr

/-- `fn parse_date(date: Option<String>) -> Option<DateTime<Utc>>`
(lines 94-116), with the ambient local timezone lifted to the parameter
`tz` and the `eprintln!` diagnostic reified in the second component:
`Single` resolves to the UTC instant, `Ambiguous` emits a diagnostic naming
both candidate instants and yields `None`, `LocalResult::None` yields
`None`. -/
def parse_date (tz : Tz) (date : Option String) : Option Int × List Diag :=
  match date with
  | none => (none, [])
  | some s =>
    match parseNaive s with
    | none => (none, [])
    | some n =>
      match tz.resolve n with
      | LocalRes.single u => (some u, [])
      | LocalRes.ambiguous u1 u2 => (none, [Diag.ambiguousDate s u1 u2])
      | LocalRes.noneRes => (none, [])

/-- The instant component of `parse_date` on a present string (what the
filtering code consumes). -/
def parse_date1 (tz : Tz) (s : String) : Option Int :=
  (parse_date tz (some s)).1

/-- Interpretation of a naive local date-time in timezone `tz`, converted to
UTC when the lookup is single-valued (the spec's "interpreted in the local
timezone and converted to UTC"). -/
def localToUtc (tz : Tz) (n : Int) : Option Int :=
  match tz.resolve n with
  | LocalRes.single u => some u
  | LocalRes.ambiguous _ _ => none
  | LocalRes.noneRes => none

/-! ### Store load (lines 123-128) -/

/-- Lines 125-128: the store content is deserialized with
`serde_json::from_reader` (abstracted as the `parseStore` parameter); a
parse error degrades to the empty collection, it is never surfaced. -/
def load (parseStore : String → Except String (List Entry)) (content : String) :
    List Entry :=
  match parseStore content with
  | Except.ok es => es
  | Except.error _ => []

/-! ### Range filtering (lines 146-179) -/

/-- `Vec::retain` with a predicate that may panic (`expect` on a failed
`parse_date`): elements are examined first to last; a `none` predicate
result aborts the whole run (modelled as `none`), so the predicate is never
evaluated when no element remains. -/
def retainExpect (p : Entry → Option Bool) : List Entry → Option (List Entry)
  | [] => some []
  | e :: es =>
    match p e with
    | none => none
    | some b => (retainExpect p es).map (fun r => if b then e :: r else r)

/-- The `--from` retain step: when a bound is given, keep entries with
`e.timestamp >= parse_date(from).expect(..)`. -/
def applyFrom (tz : Tz) (b : Option String) (es : List Entry) : Option (List Entry) :=
  match b with
  | none => some es
  | some s => retainExpect (fun e => (parse_date1 tz s).map (fun f => decide (f ≤ e.timestamp))) es

/-- The `--to` retain step: when a bound is given, keep entries with
`e.timestamp <= parse_date(to).expect(..)`. -/
def applyTo (tz : Tz) (b : Option String) (es : List Entry) : Option (List Entry) :=
  match b with
  | none => some es
  | some s => retainExpect (fun e => (parse_date1 tz s).map (fun t => decide (e.timestamp ≤ t))) es

/-! ### Daily aggregation (lines 181-197) -/

/-- One `for_each` step over the `dailies` map (lines 183-189): if the
truncated key is present, merge into the stored entry in place; otherwise
insert the daily entry under its timestamp. The `HashMap` is modelled as an
association list with (invariantly) distinct keys; since the output is
sorted by key before printing, iteration order is immaterial. -/
def insertDaily : List (Int × Entry) → Entry → List (Int × Entry)
  | [], e => [(e.timestamp, e)]
  | (k, v) :: rest, e =>
    if k = e.timestamp then (k, Entry.merge v e) :: rest
    else (k, v) :: insertDaily rest e

/-- `filtered_entries.iter().map(Entry::to_daily).for_each(..)`: fold the
daily entries into the map in encounter order. -/
def aggregate (es : List Entry) : List (Int × Entry) :=
  (es.map Entry.to_daily).foldl insertDaily []

/-- Key order on `(truncated day, entry)` pairs, the `sort_by_key(|a| a.0)`
comparison. -/
def keyLe (a b : Int × Entry) : Prop :=
  a.1 ≤ b.1

instance : DecidableRel keyLe :=
  fun a b => inferInstanceAs (Decidable (a.1 ≤ b.1))

instance : IsTotal (Int × Entry) keyLe :=
  ⟨fun a b => Int.le_total a.1 b.1⟩

instance : IsTrans (Int × Entry) keyLe :=
  ⟨fun _ _ _ h1 h2 => le_trans h1 h2⟩

/-- Line 192: `sorted.sort_by_key(|a| a.0)`. The map's keys are distinct, so
any comparison sort by key produces this list. -/
def sortByKey (l : List (Int × Entry)) : List (Int × Entry) :=
  List.insertionSort keyLe l

/-! ### The `main` dispatch (lines 118-203) -/

/-- The parsed CLI subcommand (clap `Commands`); `Export` is named
`exportCmd` because `export` is a Lean keyword. -/
inductive Commands where
  | add : Commands
  | list (f t : Option String) : Commands
  | summary (f t : Option String) : Commands
  | exportCmd (format : String) (f t : Option String) : Commands
  deriving DecidableEq, Repr

/-- Observable outcome of one invocation: the persisted store content after
the run, whether the store file was opened with truncation
(`get_ajour_file(true)`) and rewritten, and the printed lines. A printed
line is abstracted to the pair (instant the line is keyed/labelled by,
message); the local-time display formatting is presentation only. -/
structure MainResult where
  store : List Entry
  truncOpened : Bool
  lines : List (Int × String)
  deriving DecidableEq, Repr

/-- The `List` branch: both retain steps, then one line per surviving entry
in store order. -/
def listCommand (tz : Tz) (es : List Entry) (f t : Option String) :
    Option (List (Int × String)) :=
  (applyFrom tz f es).bind (fun es1 =>
  (applyTo tz t es1).map (fun es2 => es2.map (fun e => (e.timestamp, e.message))))

/-- The `Summary` branch: both retain steps, aggregation into dailies,
sort by key, then one line per day. -/
def summaryCommand (tz : Tz) (es : List Entry) (f t : Option String) :
    Option (List (Int × String)) :=
  (applyFrom tz f es).bind (fun es1 =>
  (applyTo tz t es1).map (fun es2 =>
    (sortByKey (aggregate es2)).map (fun kv => (kv.1, kv.2.message))))

/-- `fn main` after the store has been loaded into `stored`: dispatch on the
subcommand. `Some(Add) | None` appends an entry stamped `now` and rewrites
the store only when the free input is nonempty; `List`/`Summary` filter
(and aggregate) without touching the store; `Export` is `todo!()`, a
panic. A `none` result models a panic of the invocation. -/
def runMain (tz : Tz) (now : Int) (stored : List Entry) (cmd : Option Commands)
    (input : List String) : Option MainResult :=
  match cmd with
  | some Commands.add | none =>
    if input.isEmpty then
      some { store := stored, truncOpened := false, lines := [] }
    else
      some { store := stored ++ [{ timestamp := now, message := String.intercalate " " input }]
             truncOpened := true
             lines := [] }
  | some (Commands.list f t) =>
    (listCommand tz stored f t).map (fun ls =>
      { store := stored, truncOpened := false, lines := ls })
  | some (Commands.summary f t) =>
    (summaryCommand tz stored f t).map (fun ls =>
      { store := stored, truncOpened := false, lines := ls })
  | some (Commands.exportCmd _ _ _) => none

/-- Modelled from the spec: the literally-read input formats
`YYYY-MM-DD HH:MM` and `YYYY-MM-DD` — four digits, dash, two digits, dash,
two digits, optionally followed by one space, two digits, colon, two
digits. Used to compare the spec's claimed accepted language with the
code's. -/
def specFormatOk (s : String) : Bool :=
  match s.data with
  | [y1, y2, y3, y4, '-', m1, m2, '-', d1, d2] =>
    y1.isDigit && y2.isDigit && y3.isDigit && y4.isDigit &&
      m1.isDigit && m2.isDigit && d1.isDigit && d2.isDigit
  | [y1, y2, y3, y4, '-', m1, m2, '-', d1, d2, ' ', h1, h2, ':', n1, n2] =>
    y1.isDigit && y2.isDigit && y3.isDigit && y4.isDigit &&
      m1.isDigit && m2.isDigit && d1.isDigit && d2.isDigit &&
      h1.isDigit && h2.isDigit && n1.isDigit && n2.isDigit
  | _ => false

/-- The statement "the bound string `b`, when present, parses to the instant
`v`": an absent bound corresponds to an absent instant, a present bound must
parse successfully to the given instant. -/
@[reducible]
def boundParsesTo (tz : Tz) : Option String → Option Int → Prop
  | none, none => True
  | some s, some v => parse_date1 tz s = some v
  | _, _ => False

/-- A timezone in which every naive local time falls in a repeated
local-time window with candidate instants 100 and 200 (a clocks-set-back
transition), used to witness the ambiguity behavior concretely. -/
def ambTz : Tz :=
  { resolve := fun _ => LocalRes.ambiguous 100 200 }

/-! ### Theorems -/

theorem retainExpect_const (p : Entry → Bool) (es : List Entry) :
    retainExpect (fun e => some (p e)) es = some (es.filter p) := by
  induction es with
  | nil => rfl
  | cons e es ih =>
    cases hpe : p e <;> simp [retainExpect, ih, List.filter_cons, hpe]

theorem applyFrom_parsed (tz : Tz) (s : String) (F : Int) (es : List Entry)
    (h : parse_date1 tz s = some F) :
    applyFrom tz (some s) es = some (es.filter (fun e => decide (F ≤ e.timestamp))) := by
  simp only [applyFrom, h, Option.map_some']
  exact retainExpect_const _ es

theorem applyTo_parsed (tz : Tz) (s : String) (T : Int) (es : List Entry)
    (h : parse_date1 tz s = some T) :
    applyTo tz (some s) es = some (es.filter (fun e => decide (e.timestamp ≤ T))) := by
  simp only [applyTo, h, Option.map_some']
  exact retainExpect_const _ es

theorem parse_date1_resolves (tz : Tz) (s : String) (n : Int) (h : parseNaive s = some n) :
    parse_date1 tz s = localToUtc tz n := by
  simp only [parse_date1, parse_date, localToUtc, h]
  cases tz.resolve n <;> rfl

theorem parse_date1_of_naive_none (tz : Tz) (s : String) (h : parseNaive s = none) :
    parse_date1 tz s = none := by
  simp only [parse_date1, parse_date, h]

/-- Claim C9: `capitalize` uppercases the first character and leaves the
remainder unchanged; the empty string maps to itself; in particular
`capitalize "hello" = "Hello"` and `capitalize "Hello" = "Hello"`. -/
theorem capitalize_correct :
    capitalize "" = "" ∧
    (∀ (c : Char) (cs : List Char),
      capitalize (String.mk (c :: cs)) = String.mk (charToUppercase c) ++ String.mk cs) ∧
    capitalize "hello" = "Hello" ∧ capitalize "Hello" = "Hello" :=
  ⟨rfl, fun _ _ => rfl, by decide, by decide⟩

/-- Claim C8: the aggregation key produced by `Entry.to_daily` is the
entry's timestamp truncated to the start of its UTC calendar day — a
multiple of 86400 seconds (UTC midnight), at or before the timestamp, and
less than one day before it — and the message is unchanged. -/
theorem to_daily_utc_midnight (e : Entry) :
    (Entry.to_daily e).message = e.message ∧
    (Entry.to_daily e).timestamp % 86400 = 0 ∧
    (Entry.to_daily e).timestamp ≤ e.timestamp ∧
    e.timestamp - (Entry.to_daily e).timestamp < 86400 := by
  refine ⟨rfl, ?_, ?_, ?_⟩ <;> simp only [Entry.to_daily] <;> omega

/-- Claim C3: when the store content fails to deserialize, `load` returns
the empty entry sequence; no parse error reaches the caller. -/
theorem load_corrupt_returns_empty (parseStore : String → Except String (List Entry))
    (content err : String) (h : parseStore content = Except.error err) :
    load parseStore content = [] := by
  simp [load, h]

/-- Witness for `load_corrupt_returns_empty` at a concrete failing parser
and content. -/
theorem load_corrupt_returns_empty_witness :
    (fun _ : String => (Except.error "not json" : Except String (List Entry))) "garbage" =
      Except.error "not json" ∧
    load (fun _ : String => (Except.error "not json" : Except String (List Entry))) "garbage" = [] :=
  ⟨rfl, load_corrupt_returns_empty _ "garbage" "not json" rfl⟩

/-- Claim C6: a date string whose naive local interpretation is ambiguous
(repeated local-time window) yields no instant — equivalent to a parse
failure, resolved to neither candidate — and `parse_date` emits a
diagnostic naming both candidate instants. -/
theorem ambiguous_local_time_fails (tz : Tz) (s : String) (n u1 u2 : Int)
    (hn : parseNaive s = some n) (ha : tz.resolve n = LocalRes.ambiguous u1 u2) :
    parse_date tz (some s) = (none, [Diag.ambiguousDate s u1 u2]) := by
  simp [parse_date, hn, ha]

/-- Witness for `ambiguous_local_time_fails` at a concrete date string and
a timezone with a repeated local-time window. -/
theorem ambiguous_local_time_fails_witness :
    parseNaive "2024-01-05" = some 1704412800 ∧
    ambTz.resolve 1704412800 = LocalRes.ambiguous 100 200 ∧
    parse_date ambTz (some "2024-01-05") = (none, [Diag.ambiguousDate "2024-01-05" 100 200]) :=
  ⟨by decide, rfl,
    ambiguous_local_time_fails ambTz "2024-01-05" 1704412800 100 200 (by decide) rfl⟩

/-- Claim C4 (amended): the documented examples behave as stated —
`"2024-01-05"` parses to the naive local midnight of 2024-01-05 and is then
resolved through the local timezone to UTC, `"2024-01-05 14:30"` likewise to
14:30 local that date, and `"2024-13-40"` fails to parse — but the accepted
language is wider than the two literal formats (see the counterexample). -/
theorem parse_date_examples (tz : Tz) :
    parseNaive "2024-01-05" = some (civilToNaive 2024 1 5 0 0) ∧
    parseNaive "2024-01-05 14:30" = some (civilToNaive 2024 1 5 14 30) ∧
    parseNaive "2024-13-40" = none ∧
    parse_date1 tz "2024-01-05" = localToUtc tz (civilToNaive 2024 1 5 0 0) ∧
    parse_date1 tz "2024-01-05 14:30" = localToUtc tz (civilToNaive 2024 1 5 14 30) ∧
    parse_date1 tz "2024-13-40" = none :=
  ⟨by decide, by decide, by decide,
    parse_date1_resolves tz "2024-01-05" (civilToNaive 2024 1 5 0 0) (by decide),
    parse_date1_resolves tz "2024-01-05 14:30" (civilToNaive 2024 1 5 14 30) (by decide),
    parse_date1_of_naive_none tz "2024-13-40" (by decide)⟩

/-- Counterexample to claim C4 as stated: `"2024-01-05 0:0"` matches
neither literal format `YYYY-MM-DD HH:MM` nor `YYYY-MM-DD` (the code itself
builds such strings for its date-only fallback), yet the parser accepts it:
the claim that no string outside the two formats is accepted is false. -/
theorem parse_format_leniency_cex :
    specFormatOk "2024-01-05 0:0" = false ∧
    parseNaive "2024-01-05 0:0" = some (civilToNaive 2024 1 5 0 0) ∧
    parse_date1 utcTz "2024-01-05 0:0" = some (civilToNaive 2024 1 5 0 0) := by
  refine ⟨by decide, by decide, by decide⟩

/-- Claim C10: an add invocation (explicit `add` subcommand or the
no-subcommand default) with empty free text appends nothing, performs no
truncating open and no write, and leaves the stored collection unchanged. -/
theorem add_empty_input_noop (tz : Tz) (now : Int) (stored : List Entry)
    (cmd : Option Commands) (hc : cmd = some Commands.add ∨ cmd = none) :
    runMain tz now stored cmd [] =
      some { store := stored, truncOpened := false, lines := [] } := by
  rcases hc with h | h <;> subst h <;> rfl

/-- Witness for `add_empty_input_noop` on a concrete store. -/
theorem add_empty_input_noop_witness :
    runMain utcTz 0 [⟨1, "x"⟩] (some Commands.add) [] =
      some { store := [⟨1, "x"⟩], truncOpened := false, lines := [] } :=
  add_empty_input_noop utcTz 0 [⟨1, "x"⟩] (some Commands.add) (Or.inl rfl)

/-- Counterexample to claim C5 as stated: with an empty store, a `list` or
`summary` invocation with an unparseable `--from` bound does not fail — the
`expect` lives inside the `retain` closure, which is never evaluated when
no entry is examined — and the operation completes with empty output. -/
theorem bad_bound_empty_store_cex :
    parse_date1 utcTz "not-a-date" = none ∧
    runMain utcTz 0 [] (some (Commands.list (some "not-a-date") none)) [] =
      some { store := [], truncOpened := false, lines := [] } ∧
    runMain utcTz 0 [] (some (Commands.summary (some "not-a-date") none)) [] =
      some { store := [], truncOpened := false, lines := [] } := by
  refine ⟨by decide, by decide, by decide⟩

/-- Claim C5 (amended): an unparseable bound is a hard error exactly when
its retain predicate is evaluated on at least one entry: with a nonempty
store, a bad `--from` bound (or, when `--from` is absent, a bad `--to`
bound) aborts the whole `list`/`summary` invocation with no output. -/
theorem bad_bound_evaluated_panics (tz : Tz) (now : Int) (e : Entry) (rest : List Entry)
    (input : List String) (s : String) (t : Option String)
    (hp : parse_date1 tz s = none) :
    runMain tz now (e :: rest) (some (Commands.list (some s) t)) input = none ∧
    runMain tz now (e :: rest) (some (Commands.summary (some s) t)) input = none ∧
    runMain tz now (e :: rest) (some (Commands.list none (some s))) input = none ∧
    runMain tz now (e :: rest) (some (Commands.summary none (some s))) input = none := by
  refine ⟨?_, ?_, ?_, ?_⟩ <;>
    simp [runMain, listCommand, summaryCommand, applyFrom, applyTo, retainExpect, hp]

/-- Witness for `bad_bound_evaluated_panics` on a concrete nonempty store
and bound. -/
theorem bad_bound_evaluated_panics_witness :
    parse_date1 utcTz "not-a-date" = none ∧
    (runMain utcTz 0 [⟨0, "x"⟩] (some (Commands.list (some "not-a-date") none)) [] = none ∧
     runMain utcTz 0 [⟨0, "x"⟩] (some (Commands.summary (some "not-a-date") none)) [] = none ∧
     runMain utcTz 0 [⟨0, "x"⟩] (some (Commands.list none (some "not-a-date"))) [] = none ∧
     runMain utcTz 0 [⟨0, "x"⟩] (some (Commands.summary none (some "not-a-date"))) [] = none) :=
  ⟨by decide, bad_bound_evaluated_panics utcTz 0 ⟨0, "x"⟩ [] [] "not-a-date" none (by decide)⟩

/-- Counterexample to claim C1 as stated: two same-UTC-day entries with
messages "buy milk" and "walk dog" merge to "Buy milk. Walk dog" — the
template `<summary>. <incoming>` — with no trailing period, not to the
claimed "Buy milk. Walk dog.". -/
theorem merge_trailing_period_cex :
    Entry.merge ⟨0, "buy milk"⟩ ⟨0, "walk dog"⟩ = ⟨0, "Buy milk. Walk dog"⟩ ∧
    runMain utcTz 0 [⟨60, "buy milk"⟩, ⟨120, "walk dog"⟩] (some (Commands.summary none none)) [] =
      some { store := [⟨60, "buy milk"⟩, ⟨120, "walk dog"⟩], truncOpened := false,
             lines := [(0, "Buy milk. Walk dog")] } ∧
    ("Buy milk. Walk dog" : String) ≠ "Buy milk. Walk dog." := by
  refine ⟨by decide, by decide, by decide⟩

/-- Claim C1 (amended): for any two entries on the same UTC calendar day
with messages "buy milk" and "walk dog", in that encounter order, the
summary produces the single merged daily line "Buy milk. Walk dog":
both messages have their first letter capitalized and are concatenated as
`<summary>. <incoming>` (no trailing period). -/
theorem summary_merges_same_day (tz : Tz) (now : Int) (input : List String) (e1 e2 : Entry)
    (h1 : e1.message = "buy milk") (h2 : e2.message = "walk dog")
    (hk : e1.timestamp - e1.timestamp % 86400 = e2.timestamp - e2.timestamp % 86400) :
    runMain tz now [e1, e2] (some (Commands.summary none none)) input =
      some { store := [e1, e2], truncOpened := false,
             lines := [(e1.timestamp - e1.timestamp % 86400, "Buy milk. Walk dog")] } := by
  obtain ⟨t1, m1⟩ := e1
  obtain ⟨t2, m2⟩ := e2
  simp only at h1 h2 hk
  subst h1
  subst h2
  have hcap : capitalize "buy milk" ++ ". " ++ capitalize "walk dog" = "Buy milk. Walk dog" := by
    decide
  simp [runMain, summaryCommand, applyFrom, applyTo, aggregate, Entry.to_daily, insertDaily,
    sortByKey, Entry.merge, hk, hcap]

/-- Witness for `summary_merges_same_day` at concrete same-day timestamps. -/
theorem summary_merges_same_day_witness :
    runMain utcTz 0 [⟨60, "buy milk"⟩, ⟨120, "walk dog"⟩] (some (Commands.summary none none)) [] =
      some { store := [⟨60, "buy milk"⟩, ⟨120, "walk dog"⟩], truncOpened := false,
             lines := [((60 : Int) - 60 % 86400, "Buy milk. Walk dog")] } :=
  summary_merges_same_day utcTz 0 [] ⟨60, "buy milk"⟩ ⟨120, "walk dog"⟩ rfl rfl (by decide)

/-- Claim C2: when every supplied bound parses, `list` filtering returns
exactly the entries inside the inclusive `[from, to]` range, in store
order; an omitted bound imposes no constraint on its side, and two bounds
give the intersection of the one-sided filters. -/
theorem list_filter_exact (tz : Tz) (now : Int) (stored : List Entry) (input : List String)
    (f t : Option String) (F T : Option Int)
    (hF : boundParsesTo tz f F) (hT : boundParsesTo tz t T) :
    runMain tz now stored (some (Commands.list f t)) input =
      some { store := stored, truncOpened := false,
             lines := (stored.filter (fun e =>
                 F.all (fun x => decide (x ≤ e.timestamp)) &&
                 T.all (fun x => decide (e.timestamp ≤ x)))).map
               (fun e => (e.timestamp, e.message)) } := by
  rcases f with _ | s1 <;> rcases F with _ | F1 <;> try exact hF.elim
  · rcases t with _ | s2 <;> rcases T with _ | T1 <;> try exact hT.elim
    · simp [runMain, listCommand, applyFrom, applyTo]
    · simp [runMain, listCommand, applyFrom, applyTo_parsed tz s2 T1 stored hT]
  · rcases t with _ | s2 <;> rcases T with _ | T1 <;> try exact hT.elim
    · simp [runMain, listCommand, applyTo, applyFrom_parsed tz s1 F1 stored hF]
    · simp [runMain, listCommand, applyFrom_parsed tz s1 F1 stored hF,
        applyTo_parsed tz s2 T1 _ hT, List.filter_filter]
      have hcomm : (fun a : Entry => decide (a.timestamp ≤ T1) && decide (F1 ≤ a.timestamp)) =
          (fun e : Entry => decide (F1 ≤ e.timestamp) && decide (e.timestamp ≤ T1)) := by
        funext e
        exact Bool.and_comm _ _
      rw [hcomm]

/-- Witness for `list_filter_exact`: both bounds parse concretely and the
filtered output is exactly the in-range entry. -/
theorem list_filter_exact_witness :
    boundParsesTo utcTz (some "1970-01-01") (some 0) ∧
    boundParsesTo utcTz (some "1970-01-01 0:1") (some 60) ∧
    runMain utcTz 0 [⟨-5, "a"⟩, ⟨3, "b"⟩, ⟨100, "c"⟩]
        (some (Commands.list (some "1970-01-01") (some "1970-01-01 0:1"))) [] =
      some { store := [⟨-5, "a"⟩, ⟨3, "b"⟩, ⟨100, "c"⟩], truncOpened := false,
             lines := (([⟨-5, "a"⟩, ⟨3, "b"⟩, ⟨100, "c"⟩] : List Entry).filter (fun e =>
                 (some (0 : Int)).all (fun x => decide (x ≤ e.timestamp)) &&
                 (some (60 : Int)).all (fun x => decide (e.timestamp ≤ x)))).map
               (fun e => (e.timestamp, e.message)) } :=
  ⟨by decide, by decide,
    list_filter_exact utcTz 0 [⟨-5, "a"⟩, ⟨3, "b"⟩, ⟨100, "c"⟩] []
      (some "1970-01-01") (some "1970-01-01 0:1") (some 0) (some 60) (by decide) (by decide)⟩

/-- Claim C7: whatever the input order of the stored entries, the summary
output lines are sorted ascending by the truncated-day instant that served
as the grouping key. -/
theorem summary_lines_sorted (tz : Tz) (now : Int) (stored : List Entry) (input : List String)
    (f t : Option String) (r : MainResult)
    (h : runMain tz now stored (some (Commands.summary f t)) input = some r) :
    List.Pairwise (fun a b => a.1 ≤ b.1) r.lines := by
  unfold runMain at h
  rcases Option.map_eq_some'.mp h with ⟨ls, hls, hr⟩
  unfold summaryCommand at hls
  rcases Option.bind_eq_some.mp hls with ⟨es1, h1, h2⟩
  rcases Option.map_eq_some'.mp h2 with ⟨es2, h3, h4⟩
  have hrl : r.lines = (sortByKey (aggregate es2)).map (fun kv => (kv.1, kv.2.message)) := by
    rw [← hr, ← h4]
  rw [hrl, List.pairwise_map]
  have hs : List.Pairwise keyLe (sortByKey (aggregate es2)) :=
    List.sorted_insertionSort keyLe (aggregate es2)
  exact hs.imp (fun hab => hab)

/-- Witness for `summary_lines_sorted`: two out-of-order days come out in
ascending day order. -/
theorem summary_lines_sorted_witness :
    runMain utcTz 0 [⟨86400, "b"⟩, ⟨0, "a"⟩] (some (Commands.summary none none)) [] =
      some { store := [⟨86400, "b"⟩, ⟨0, "a"⟩], truncOpened := false,
             lines := [(0, "a"), (86400, "b")] } ∧
    List.Pairwise (fun a b => a.1 ≤ b.1) [((0 : Int), "a"), ((86400 : Int), "b")] :=
  ⟨by decide,
    summary_lines_sorted utcTz 0 [⟨86400, "b"⟩, ⟨0, "a"⟩] [] none none
      { store := [⟨86400, "b"⟩, ⟨0, "a"⟩], truncOpened := false,
        lines := [(0, "a"), (86400, "b")] }
      (by decide)⟩
